import Mathlib

/-!
Verification of the zprd router core against its specification.

This file gives a shallow embedding, in Lean 4, of the parts of zprd that the
checked claims talk about:

* the routing-table component `route_via_t` (routes.cxx / routes.hpp):
  `find_router`, `update_hopcnt`, `add_router`, `update_router`, `del_router`,
  `del_primary_router`, `cleanup`;
* the PRN v2 codec (zprn.cxx, docs/ZPRN, sender.cxx / main.cxx):
  record serialisation, datagram batching, and the parsing loop
  `handle_zprn_v2_pkt`;
* the PRN handlers of main.cxx: `zprn_v2_routemod_handler`,
  `zprn_v2_connmgmt_handler`, `zprn_handle_probe_req`, `zprn_v2_probe_handler`,
  and the flood helper `send_zprn_msg`;
* the IPv4 ingress pipeline of main.cxx: `resolve_route` and `route_packet`;
* the sender component (sender.cxx): `enqueue` of data and PRN frames and the
  worker's per-frame behaviour;
* the ingress entry point `route_genip_packet`.

Machine integers are modelled as `Nat` (all the relevant C arithmetic is done
after integral promotion to `int`, so no wrap-around occurs in the embedded
expressions); `time_t` values are `Int`; the C `double` latency is modelled as
`Rat`, which is faithful here because the code only copies and compares
latencies (no claim depends on floating-point rounding).

A C++ `std::shared_ptr<remote_peer_t>` is modelled as a `Peer` value carrying
an object identity `pid` (pointer equality of two shared_ptr handles is
equality of `pid`) next to the socket-address data (`fam`, `adr`).
-/

set_option linter.unusedVariables false

namespace ZPRD

/-- Remote peer handle (remote_peer_t via remote_peer_ptr_t).  `pid` is the
heap-object identity of the shared pointer: two handles compare equal with
shared_ptr equality iff their `pid` agree.  `fam` models
`saddr.ss_family` and `adr` the remaining socket-address payload
(address bytes and port, collapsed into one number; none of the claims
inspects their internal structure). -/
structure Peer where
  pid : Nat
  fam : Nat
  adr : Nat
deriving DecidableEq, Repr

/-- remote_peer_t::is_local: the address family is AF_UNSPEC (= 0). -/
def Peer.is_local (p : Peer) : Bool := p.fam == 0

/-- Modelled from the spec: operator== on remote_peer_t (remote_peer.cxx is
not under src/); §4.2 compares peers by (family, address bytes, port), so
value equality of two peers is equality of the socket-address fields. -/
def peerValEq (p q : Peer) : Bool := p.fam == q.fam && p.adr == q.adr

/-- via_router_t (routes.hpp): one router entry of a destination's route.
The constructor `via_router_t(addr, hops)` sets `seen = last_time` and
`latency = 0`; this is inlined at the single construction site in
`add_router` below. -/
structure via_router_t where
  addr : Peer
  seen : Int
  latency : ℚ
  hops : Nat
deriving DecidableEq, Repr

/-- update_hopcnt (routes.cxx): keep the old hop count when the new one is
larger by exactly 0xbe or 0xbf, otherwise store the new one.  The C
subtraction `newhops - oldhops` is done after integral promotion to `int`
and is guarded by `newhops > oldhops`, so plain `Nat` subtraction is exact. -/
def update_hopcnt (oldhops newhops : Nat) : Nat :=
  if oldhops < newhops then
    if newhops - oldhops = 0xbe then oldhops
    else if newhops - oldhops = 0xbf then oldhops
    else newhops
  else newhops

/-- The match predicate of route_via_t::find_router (routes.cxx):
`i.addr == router` is shared_ptr (pointer) equality, `(*i.addr) == (*router)`
is socket-address value equality. -/
def matches_router (router : Peer) (i : via_router_t) : Bool :=
  i.addr.pid == router.pid || peerValEq i.addr router

/-- route_via_t (routes.hpp): the ordered router list of one destination plus
the fresh-add flag. -/
structure route_via_t where
  _routers : List via_router_t
  _fresh_add : Bool
deriving DecidableEq, Repr

/-- route_via_t::empty. -/
def route_via_t.empty (rv : route_via_t) : Bool := rv._routers.isEmpty

/-- Apply f to the first list element satisfying p (the effect of mutating
through the iterator returned by find_router / std::find_if). -/
def updateFirst (p : α → Bool) (f : α → α) : List α → List α
  | [] => []
  | x :: xs => if p x then f x :: xs else x :: updateFirst p f xs

/-- route_via_t::add_router (routes.cxx).  `lastTime` is the global
`last_time` read by the via_router_t constructor and by the seen-refresh.
Returns the updated entry and the C function's boolean result
(true iff the router was newly inserted). -/
def route_via_t.add_router (lastTime : Int) (rv : route_via_t) (router : Peer)
    (hops : Nat) : route_via_t × Bool :=
  let fresh := rv._routers.isEmpty || rv._fresh_add
  let upd : via_router_t → via_router_t :=
    fun i => { i with seen := lastTime, hops := update_hopcnt i.hops hops }
  let fresh_entry : via_router_t := { addr := router, seen := lastTime, latency := 0, hops := hops }
  if rv._routers.any (matches_router router) then
    ({ _routers := updateFirst (matches_router router) upd rv._routers,
       _fresh_add := fresh }, false)
  else
    ({ _routers := fresh_entry :: rv._routers, _fresh_add := fresh }, true)

/-- route_via_t::update_router (routes.cxx): no-op when the router is absent,
otherwise refresh seen, apply the hop-count rule and store the latency. -/
def route_via_t.update_router (lastTime : Int) (rv : route_via_t) (router : Peer)
    (hops : Nat) (latency : ℚ) : route_via_t :=
  let upd : via_router_t → via_router_t :=
    fun i => { i with seen := lastTime, hops := update_hopcnt i.hops hops, latency := latency }
  if rv._routers.any (matches_router router) then
    { rv with _routers := updateFirst (matches_router router) upd rv._routers }
  else rv

/-- route_via_t::del_router (routes.cxx).  Note that the remove_if predicate
is `router == a.addr`, which is shared_ptr (pointer) equality only — unlike
find_router it does not fall back to socket-address equality.  Returns the
updated entry and whether at least one element was removed. -/
def route_via_t.del_router (rv : route_via_t) (router : Peer) : route_via_t × Bool :=
  ({ rv with _routers := rv._routers.filter (fun a => !(router.pid == a.addr.pid)) },
   rv._routers.any (fun a => router.pid == a.addr.pid))

/-- route_via_t::del_primary_router: pop_front on the router list. -/
def route_via_t.del_primary_router (rv : route_via_t) : route_via_t :=
  { rv with _routers := rv._routers.tail }

/-- The strict comparator passed to forward_list::sort in
route_via_t::cleanup:
`tie(a.hops, a.latency, b.seen) < tie(b.hops, b.latency, a.seen)`. -/
def router_sort_lt (a b : via_router_t) : Prop :=
  toLex (a.hops, toLex (a.latency, b.seen)) < toLex (b.hops, toLex (b.latency, a.seen))

instance : DecidableRel router_sort_lt := fun a b => by
  unfold router_sort_lt; infer_instance

/-- The total preorder induced by the sort comparator: a may stay before b
iff the comparator does not demand b before a.  A stable sort with the strict
comparator produces exactly the stable sort under this preorder. -/
def router_sort_le (a b : via_router_t) : Prop := ¬ router_sort_lt b a

instance : DecidableRel router_sort_le := fun a b => by
  unfold router_sort_le; infer_instance

/-- Sort key of a router entry: hops ascending, then latency ascending, then
seen descending (negated seen ascending), compared lexicographically. -/
def sortKey (a : via_router_t) : Lex (ℕ × Lex (ℚ × ℤ)) :=
  toLex (a.hops, toLex (a.latency, -a.seen))

theorem router_sort_lt_iff (a b : via_router_t) :
    router_sort_lt a b ↔ sortKey a < sortKey b := by
  unfold router_sort_lt sortKey
  rw [Prod.Lex.lt_iff, Prod.Lex.lt_iff, Prod.Lex.lt_iff, Prod.Lex.lt_iff]
  refine or_congr Iff.rfl (and_congr Iff.rfl (or_congr Iff.rfl (and_congr Iff.rfl ?_)))
  omega

theorem router_sort_le_iff (a b : via_router_t) :
    router_sort_le a b ↔ sortKey a ≤ sortKey b := by
  unfold router_sort_le
  rw [router_sort_lt_iff, not_lt]

instance : IsTotal via_router_t router_sort_le :=
  ⟨fun a b => (le_total (sortKey a) (sortKey b)).imp
    (router_sort_le_iff a b).mpr (router_sort_le_iff b a).mpr⟩

instance : IsTrans via_router_t router_sort_le :=
  ⟨fun a b c hab hbc => (router_sort_le_iff a c).mpr
    (le_trans ((router_sort_le_iff a b).mp hab) ((router_sort_le_iff b c).mp hbc))⟩

/-- route_via_t::cleanup (routes.cxx).  With `ct = last_time − 2·remote_timeout`,
remove_if drops every entry with `seen ≤ ct`, invoking the callback on each
dropped entry's router in list order; then forward_list::sort (a stable merge
sort) sorts the survivors with the strict comparator.  Mathlib's insertionSort
under the complementary total preorder computes the same stable result.
Returns the updated entry and the routers passed to the drop callback. -/
def route_via_t.cleanup (lastTime remoteTimeout : Int) (rv : route_via_t) :
    route_via_t × List Peer :=
  let ct := lastTime - 2 * remoteTimeout
  let dropped := (rv._routers.filter (fun a => !(decide (ct < a.seen)))).map (·.addr)
  let kept := rv._routers.filter (fun a => decide (ct < a.seen))
  ({ rv with _routers := List.insertionSort router_sort_le kept }, dropped)

/-- C2: the hop-count update rule stores the new value unless the new value
exceeds the old one and the difference is exactly 0xbe or 0xbf, in which case
the old value is kept; in particular a smaller new value always replaces the
old one. -/
theorem update_hopcnt_spec (oldh newh : Nat) (h1 : oldh < 256) (h2 : newh < 256) :
    (update_hopcnt oldh newh =
      if newh > oldh ∧ (newh - oldh = 0xbe ∨ newh - oldh = 0xbf) then oldh else newh)
    ∧ (newh < oldh → update_hopcnt oldh newh = newh) := by
  constructor
  · unfold update_hopcnt
    by_cases hlt : oldh < newh
    · by_cases hbe : newh - oldh = 0xbe
      · simp [hlt, hbe]
      · by_cases hbf : newh - oldh = 0xbf
        · simp [hlt, hbe, hbf]
        · simp [hlt, hbe, hbf]
    · have hngt : ¬ (newh > oldh ∧ (newh - oldh = 0xbe ∨ newh - oldh = 0xbf)) := by
        intro hc; exact hlt hc.1
      simp [hlt, hngt]
  · intro hlt
    unfold update_hopcnt
    have h : ¬ oldh < newh := by omega
    simp [h]

/-- Witness for C2: at (old, new) = (10, 200) the difference is 0xbe and the
old value is kept; at (200, 10) the new, smaller value replaces the old. -/
theorem update_hopcnt_spec_witness :
    update_hopcnt 10 200 = 10 ∧ update_hopcnt 200 10 = 10 := by
  constructor
  · have h := (update_hopcnt_spec 10 200 (by norm_num) (by norm_num)).1
    simpa using h
  · exact (update_hopcnt_spec 200 10 (by norm_num) (by norm_num)).2 (by norm_num)

/-- A route entry holding one router reached through the peer handle with
object identity 1 and socket address (family 2, payload 5). -/
def cexEntry : route_via_t :=
  { _routers := [{ addr := ⟨1, 2, 5⟩, seen := 0, latency := 0, hops := 3 }],
    _fresh_add := false }

/-- A different peer handle (object identity 2) whose socket address equals
the stored router's socket address. -/
def cexOtherHandle : Peer := ⟨2, 2, 5⟩

/-- C6, counterexample: del_router does not remove a ViaRouter whose peer is
a distinct handle with an equal socket address.  The stored router and the
argument are socket-address equal (the match find_router would use), yet
del_router removes nothing and returns false, because its remove_if predicate
is shared_ptr identity only. -/
theorem del_router_claim_cex :
    peerValEq (⟨1, 2, 5⟩ : Peer) cexOtherHandle = true ∧
    cexEntry.del_router cexOtherHandle = (cexEntry, false) := by decide

theorem beq_pid_iff (router : Peer) (a : via_router_t) :
    (router.pid == a.addr.pid) = true ↔ router.pid = a.addr.pid := beq_iff_eq

/-- C6, amended: del_router removes exactly the ViaRouters whose peer is the
same shared-pointer handle (object identity); it returns true iff at least
one was removed, and when no stored router has the handle's identity it
returns false and leaves the entry unmodified. -/
theorem del_router_amended (rv : route_via_t) (router : Peer) :
    (rv.del_router router).1._routers
        = rv._routers.filter (fun a => !(router.pid == a.addr.pid))
  ∧ ((rv.del_router router).2 = true ↔ ∃ a ∈ rv._routers, router.pid = a.addr.pid)
  ∧ ((∀ a ∈ rv._routers, router.pid ≠ a.addr.pid) → rv.del_router router = (rv, false)) := by
  refine ⟨rfl, ?_, ?_⟩
  · unfold route_via_t.del_router
    simp [List.any_eq_true]
  · intro h
    unfold route_via_t.del_router
    have h1 : rv._routers.filter (fun a => !(router.pid == a.addr.pid)) = rv._routers := by
      apply List.filter_eq_self.mpr
      intro a ha
      simpa using h a ha
    have h2 : rv._routers.any (fun a => router.pid == a.addr.pid) = false := by
      rw [List.any_eq_false]
      intro a ha
      simpa using h a ha
    rw [h1, h2]

/-- Witness for the amended C6: deleting a handle that is absent (identity 7)
from the sample entry returns false and leaves the entry unchanged. -/
theorem del_router_amended_witness :
    cexEntry.del_router (⟨7, 9, 9⟩ : Peer) = (cexEntry, false) :=
  (del_router_amended cexEntry ⟨7, 9, 9⟩).2.2 (by decide)

theorem router_sort_le_explicit (a b : via_router_t) :
    router_sort_le a b ↔ (a.hops < b.hops ∨ (a.hops = b.hops ∧
      (a.latency < b.latency ∨ (a.latency = b.latency ∧ -a.seen ≤ -b.seen)))) := by
  rw [router_sort_le_iff]
  unfold sortKey
  rw [Prod.Lex.le_iff, Prod.Lex.le_iff]

/-- C1: after cleanup, every ViaRouter whose seen is at most
now − 2·remote_timeout has been removed and its router passed to the on_drop
callback, and the remaining routers are sorted so that each consecutive pair
a, b satisfies (a.hops, a.latency, −a.seen) ≤ (b.hops, b.latency, −b.seen)
lexicographically. -/
theorem cleanup_spec (lastTime remoteTimeout : Int) (rv : route_via_t) :
    (∀ a ∈ ((rv.cleanup lastTime remoteTimeout).1)._routers,
        lastTime - 2 * remoteTimeout < a.seen)
  ∧ (∀ a ∈ rv._routers, a.seen ≤ lastTime - 2 * remoteTimeout →
        a.addr ∈ (rv.cleanup lastTime remoteTimeout).2)
  ∧ List.Chain' (fun a b => a.hops < b.hops ∨ (a.hops = b.hops ∧
        (a.latency < b.latency ∨ (a.latency = b.latency ∧ -a.seen ≤ -b.seen))))
      ((rv.cleanup lastTime remoteTimeout).1)._routers := by
  unfold route_via_t.cleanup
  refine ⟨?_, ?_, ?_⟩
  · intro a ha
    simp only [List.mem_insertionSort] at ha
    have hmem := List.mem_filter.mp ha
    simpa using hmem.2
  · intro a ha hle
    simp only [List.mem_map]
    refine ⟨a, List.mem_filter.mpr ⟨ha, ?_⟩, rfl⟩
    simpa using hle
  · have hs := List.sorted_insertionSort router_sort_le
      (rv._routers.filter (fun a => decide (lastTime - 2 * remoteTimeout < a.seen)))
    exact (List.Pairwise.imp (fun {a b} hab => (router_sort_le_explicit a b).mp hab) hs).chain'

/-- A sample entry: the first router is stale at time 100 with timeout 10,
the second is fresh. -/
def cleanupSample : route_via_t :=
  { _routers := [ { addr := ⟨1, 2, 5⟩, seen := 50, latency := 0, hops := 2 },
                  { addr := ⟨2, 2, 6⟩, seen := 95, latency := 0, hops := 1 } ],
    _fresh_add := false }

/-- Witness for C1: at time 100 with remote_timeout 10, the stale router of
the sample entry (seen 50 ≤ 80) is reported to the drop callback. -/
theorem cleanup_spec_witness :
    (⟨1, 2, 5⟩ : Peer) ∈ (cleanupSample.cleanup 100 10).2 :=
  (cleanup_spec 100 10 cleanupSample).2.1
    { addr := ⟨1, 2, 5⟩, seen := 50, latency := 0, hops := 2 } (by decide) (by decide)

/-- Inner address (inner_addr_t; iAFa.hpp has only declarations under src/):
the wire type tag IAFA_AT and the address bytes. -/
structure inner_addr_t where
  iat : Nat
  ibytes : List Nat
deriving DecidableEq, Repr

/-- Modelled from the spec: the address length per type tag (pli_at2alen /
get_tflen of iAFa.hpp, which is not under src/); spec §4.1: the wire tag is
{1: IPv4, 2: IPv6} with 4 resp. 16 address bytes and tflen = 2 + addr_bytes. -/
def at2alen (iat : Nat) : Nat := if iat = 1 then 4 else if iat = 2 then 16 else 0

/-- zprn_v2 record (zprn.hpp / docs/ZPRN): command byte, priority byte and
the route address. -/
structure zprn_v2 where
  zprn_cmd : Nat
  zprn_prio : Nat
  route : inner_addr_t
deriving DecidableEq, Repr

/-- zprn_v2::get_needed_size (zprn.cxx): 2 + route.get_tflen() with
tflen = 2 (type tag) + address bytes. -/
def zprn_v2.get_needed_size (r : zprn_v2) : Nat := 2 + (2 + at2alen r.route.iat)

/-- One record as the sender's worker copies it into a datagram
(sender.cxx, worker_fn): cmd, prio, the type tag converted to network byte
order (big-endian, via the htons in zprn_rttr), then the address bytes. -/
def serializeRecord (r : zprn_v2) : List Nat :=
  [r.zprn_cmd, r.zprn_prio, r.route.iat / 256, r.route.iat % 256] ++ r.route.ibytes

/-- The 4-byte PRN v2 frame header (zprn_v2hdr, zeroed with zprn_ver = 2):
magic 0, version 2, two reserved zero bytes. -/
def zprnHdr : List Nat := [0, 2, 0, 0]

/-- One step of the worker's per-destination batching loop
(sender.cxx, worker_fn): append the record to the newest datagram unless
that datagram would exceed 1232 bytes, in which case begin a fresh datagram
with the frame header.  The datagram list is kept newest-first here
(reversed at the end of `zprnBatch`). -/
def zprnBatchStep (acc : List (List Nat)) (r : zprn_v2) : List (List Nat) :=
  match acc with
  | [] => [zprnHdr ++ serializeRecord r]
  | cur :: rest =>
      if 1232 < cur.length + r.get_needed_size then
        (zprnHdr ++ serializeRecord r) :: cur :: rest
      else (cur ++ serializeRecord r) :: rest

/-- The datagrams the sender's worker builds for one destination from a list
of PRN records, oldest datagram first. -/
def zprnBatch (msgs : List zprn_v2) : List (List Nat) :=
  (msgs.foldl zprnBatchStep []).reverse

/-- The record-parsing loop of handle_zprn_v2_pkt (main.cxx), starting after
the 4-byte header: read cmd, prio and the 2-byte type tag (converted back
from network byte order by the ntohs); if the record's needed size exceeds
the bytes remaining (or fewer than one record header remains), stop;
otherwise dispatch the record and continue behind it.  Returns the records
dispatched to the handlers, in order. -/
def parseRecords : List Nat → List zprn_v2
  | c :: p :: t1 :: t2 :: rest =>
      if h : rest.length < at2alen (t1 * 256 + t2) then []
      else
        { zprn_cmd := c, zprn_prio := p,
          route := ⟨t1 * 256 + t2, rest.take (at2alen (t1 * 256 + t2))⟩ }
          :: parseRecords (rest.drop (at2alen (t1 * 256 + t2)))
  | _ => []
termination_by l => l.length
decreasing_by simp [List.length_drop]; omega

/-- handle_zprn_pkt / handle_zprn_v2_pkt (main.cxx): a datagram is processed
as a PRN v2 frame when it has at least 4 bytes, its first byte (the magic) is
zero, its second byte (the version) is 2, and its length exceeds the header
size plus 2; the dispatched records are those of the parsing loop.  On any
other datagram no record is dispatched. -/
def zprnDispatchedRecords (l : List Nat) : List zprn_v2 :=
  match l with
  | b0 :: b1 :: _ :: _ :: rest =>
      if b0 = 0 ∧ b1 = 2 ∧ 2 < rest.length then parseRecords rest else []
  | _ => []

/-- Well-formed PRN record: byte-sized cmd and prio, a supported address
family tag, and exactly the address bytes that tag demands. -/
def wfRecord (r : zprn_v2) : Prop :=
  r.zprn_cmd < 256 ∧ r.zprn_prio < 256 ∧ (r.route.iat = 1 ∨ r.route.iat = 2) ∧
  r.route.ibytes.length = at2alen r.route.iat

instance : DecidablePred wfRecord := fun r => by unfold wfRecord; infer_instance

theorem serializeRecord_length (r : zprn_v2) (h : wfRecord r) :
    (serializeRecord r).length = r.get_needed_size := by
  simp [serializeRecord, zprn_v2.get_needed_size, h.2.2.2]
  omega

theorem parseRecords_flatten (rs : List zprn_v2) (hwf : ∀ r ∈ rs, wfRecord r) :
    parseRecords (rs.map serializeRecord).flatten = rs := by
  induction rs with
  | nil => simp [parseRecords]
  | cons r rs ih =>
      obtain ⟨hc, hp, hiat, hlen⟩ := hwf r (List.mem_cons_self r rs)
      have hiat2 : r.route.iat / 256 * 256 + r.route.iat % 256 = r.route.iat := by
        omega
      have hrec : (rs.map serializeRecord).flatten.length =
          (rs.map serializeRecord).flatten.length := rfl
      simp only [List.map_cons, List.flatten_cons, serializeRecord, List.cons_append,
        List.nil_append, parseRecords, hiat2]
      rw [dif_neg (by simp [hlen])]
      have htake : List.take (at2alen r.route.iat)
          (r.route.ibytes ++ (rs.map serializeRecord).flatten) = r.route.ibytes := by
        rw [← hlen]; exact List.take_left _ _
      have hdrop : List.drop (at2alen r.route.iat)
          (r.route.ibytes ++ (rs.map serializeRecord).flatten) =
          (rs.map serializeRecord).flatten := by
        rw [← hlen]; exact List.drop_left _ _
      rw [htake, hdrop, ih (fun x hx => hwf x (List.mem_cons_of_mem r hx))]

theorem zprnBatch_fold_single (rs : List zprn_v2) (buf : List Nat)
    (hwf : ∀ r ∈ rs, wfRecord r)
    (hsz : buf.length + (rs.map zprn_v2.get_needed_size).sum ≤ 1232) :
    rs.foldl zprnBatchStep [buf] = [buf ++ (rs.map serializeRecord).flatten] := by
  induction rs generalizing buf with
  | nil => simp
  | cons r rs ih =>
      have hr := hwf r (List.mem_cons_self r rs)
      have hred : zprnBatchStep [buf] r =
          if 1232 < buf.length + r.get_needed_size then
            (zprnHdr ++ serializeRecord r) :: [buf]
          else [buf ++ serializeRecord r] := rfl
      have hstep : zprnBatchStep [buf] r = [buf ++ serializeRecord r] := by
        rw [hred, if_neg]
        simp only [List.map_cons, List.sum_cons] at hsz
        omega
      rw [List.foldl_cons, hstep,
        ih (buf ++ serializeRecord r) (fun x hx => hwf x (List.mem_cons_of_mem r hx))
          (by simp only [List.length_append, serializeRecord_length r hr]
              simp only [List.map_cons, List.sum_cons] at hsz
              omega)]
      simp

/-- C7: PRN v2 frames round-trip.  For any nonempty list of well-formed
records whose serialisation (4-byte header plus records) fits in the 1232-byte
batch limit, the sender's batching loop produces exactly one datagram,
namely the header followed by the concatenated records; parsing that datagram
dispatches exactly the original records in order; and each record occupies
2 + (2 + address bytes) bytes of the datagram. -/
theorem zprn_roundtrip (rs : List zprn_v2) (hwf : ∀ r ∈ rs, wfRecord r)
    (hsz : 4 + (rs.map zprn_v2.get_needed_size).sum ≤ 1232) (hne : rs ≠ []) :
    zprnBatch rs = [zprnHdr ++ (rs.map serializeRecord).flatten]
  ∧ zprnDispatchedRecords (zprnHdr ++ (rs.map serializeRecord).flatten) = rs
  ∧ ∀ r ∈ rs, (serializeRecord r).length = 2 + (2 + at2alen r.route.iat) := by
  obtain ⟨r0, rs', rfl⟩ : ∃ r0 rs', rs = r0 :: rs' := by
    cases rs with
    | nil => exact absurd rfl hne
    | cons a l => exact ⟨a, l, rfl⟩
  have hr0 := hwf r0 (List.mem_cons_self r0 rs')
  refine ⟨?_, ?_, ?_⟩
  · unfold zprnBatch
    rw [List.foldl_cons]
    have hstep : zprnBatchStep [] r0 = [zprnHdr ++ serializeRecord r0] := rfl
    rw [hstep, zprnBatch_fold_single rs' (zprnHdr ++ serializeRecord r0)
      (fun x hx => hwf x (List.mem_cons_of_mem r0 hx))
      (by simp only [List.length_append, serializeRecord_length r0 hr0]
          simp only [List.map_cons, List.sum_cons] at hsz
          simp only [zprnHdr]
          simp only [List.length_cons, List.length_nil]
          omega)]
    simp
  · show zprnDispatchedRecords (0 :: 2 :: 0 :: 0 :: (List.map serializeRecord (r0 :: rs')).flatten)
      = r0 :: rs'
    have hred : zprnDispatchedRecords
        (0 :: 2 :: 0 :: 0 :: (List.map serializeRecord (r0 :: rs')).flatten) =
        if (0 : Nat) = 0 ∧ (2 : Nat) = 2 ∧
            2 < (List.map serializeRecord (r0 :: rs')).flatten.length then
          parseRecords (List.map serializeRecord (r0 :: rs')).flatten
        else [] := rfl
    rw [hred, if_pos, parseRecords_flatten _ hwf]
    refine ⟨rfl, rfl, ?_⟩
    have : (serializeRecord r0).length = r0.get_needed_size := serializeRecord_length r0 hr0
    simp only [List.map_cons, List.flatten_cons, List.length_append]
    have h4 : 4 ≤ (serializeRecord r0).length := by
      rw [this]; unfold zprn_v2.get_needed_size; omega
    omega
  · intro r hr
    rw [serializeRecord_length r (hwf r hr)]
    rfl

/-- Sample record pair: a ROUTEMOD add for an IPv4 route and a ROUTEMOD
delete for an IPv6 route. -/
def sampleRecs : List zprn_v2 :=
  [ { zprn_cmd := 0, zprn_prio := 3, route := ⟨1, [10, 0, 0, 1]⟩ },
    { zprn_cmd := 0, zprn_prio := 0xff, route := ⟨2, List.replicate 16 7⟩ } ]

/-- Witness for C7: the sample IPv4 + IPv6 record pair serialises into one
datagram that parses back to exactly the same records. -/
theorem zprn_roundtrip_witness :
    zprnDispatchedRecords (zprnHdr ++ (sampleRecs.map serializeRecord).flatten) = sampleRecs :=
  (zprn_roundtrip sampleRecs (by decide) (by decide) (by decide)).2.1

/-- End-around carry folding of a ones-complement accumulator into 16 bits. -/
def foldCarry (n : Nat) : Nat :=
  if n < 65536 then n else foldCarry (n % 65536 + n / 65536)
termination_by n
decreasing_by omega

/-- Group bytes into 16-bit big-endian words (an odd trailing byte is padded
with a zero low byte). -/
def words16 : List Nat → List Nat
  | [] => []
  | [a] => [a * 256]
  | a :: b :: rest => (a * 256 + b) :: words16 rest

/-- Modelled from the spec: in_cksum (implemented in the lowlevelzs library,
not under src/) is the standard RFC 1071 internet checksum: the complement of
the end-around-carry ones-complement sum of the 16-bit words.  At byte level
the result is independent of the host byte order. -/
def inCksum (bytes : List Nat) : Nat := 65535 - foldCarry (words16 bytes).sum

/-- The worker's IPv4 checksum rewrite before a TUN write (sender.cxx,
worker_fn): when the buffer holds at least an IPv4 header (length ≥ 20,
version nibble 4), recompute IN_CKSUM over the 20-byte struct ip (whose
checksum field route_packet zeroed on ingress) and store it into the
checksum field (bytes 10 and 11). -/
def fixCksumV4 (buf : List Nat) : List Nat :=
  if 20 ≤ buf.length ∧ buf.headD 0 / 16 = 4 then
    (buf.set 10 (inCksum (buf.take 20) / 256)).set 11 (inCksum (buf.take 20) % 256)
  else buf

/-- A data frame (send_data, sender.hpp): payload bytes, destination peers,
the inner IPv4 ip_off field (whose DF bit selects the outer DF), and the
outer TOS byte. -/
structure send_data where
  buffer : List Nat
  dests : List Peer
  frag : Nat
  tos : Nat
deriving DecidableEq, Repr

/-- Observable actions of the sender worker. -/
inductive SendEffect
  | tunWrite (bytes : List Nat)
  | setTos (tos : Nat)
  | setDf (df : Bool)
  | udpSend (dest : Peer) (bytes : List Nat)
deriving DecidableEq, Repr

/-- sender_t::enqueue(send_data&&) (sender.cxx): a frame whose destination
list is empty is dropped (not queued); a frame whose first destination is
the local sentinel has its destination list cleared (marking TUN delivery);
anything else is queued unchanged. -/
def sender_enqueue_data (dat : send_data) : Option send_data :=
  match dat.dests with
  | [] => none
  | p :: _ => some { dat with dests := if p.is_local then [] else dat.dests }

/-- worker_fn's handling of one data frame (sender.cxx): an empty destination
list means local delivery — recompute the IPv4 header checksum and write the
buffer to the TUN device; otherwise update the cached outer TOS and DF
socket options if they differ from the frame's and send the buffer to every
destination.  `cache` is the worker's (df, tos) socket-option state. -/
def worker_process_data (cache : Bool × Nat) (dat : send_data) :
    (Bool × Nat) × List SendEffect :=
  if dat.dests.isEmpty then (cache, [.tunWrite (fixCksumV4 dat.buffer)])
  else
    let cdf := Nat.testBit dat.frag 14
    let e1 := if cache.2 ≠ dat.tos then [SendEffect.setTos dat.tos] else []
    let e2 := if cache.1 ≠ cdf then [SendEffect.setDf cdf] else []
    ((cdf, dat.tos), e1 ++ e2 ++ dat.dests.map (fun p => .udpSend p dat.buffer))

/-- What the sender does, end to end, with one enqueued data frame, starting
from the worker's initial socket-option state (DF off, TOS 0, as set at
worker startup). -/
def sender_deliver_data (dat : send_data) : List SendEffect :=
  match sender_enqueue_data dat with
  | none => []
  | some q => (worker_process_data (false, 0) q).2

/-- C9, counterexample: a frame enqueued with an empty destination list is
discarded by sender_t::enqueue — it is never queued and the worker never
writes it to the TUN device — contradicting the claim that such frames are
delivered locally. -/
theorem sender_empty_dest_cex :
    sender_enqueue_data { buffer := [0x45, 0, 0, 20], dests := [], frag := 0, tos := 0 } = none
  ∧ sender_deliver_data { buffer := [0x45, 0, 0, 20], dests := [], frag := 0, tos := 0 } = [] := by
  decide

/-- C9, amended: a frame enqueued with an empty destination list is
discarded, never reaching the TUN device; a frame whose destination list
names the local sentinel first is delivered locally — written to the TUN
device and never sent over UDP — with the IPv4 header checksum recomputed
first whenever the buffer holds an IPv4 packet. -/
theorem sender_local_delivery (buf : List Nat) (ds : List Peer) (frag tos : Nat)
    (p : Peer) (hp : p.is_local = true) :
    sender_deliver_data { buffer := buf, dests := [], frag := frag, tos := tos } = []
  ∧ sender_deliver_data { buffer := buf, dests := p :: ds, frag := frag, tos := tos }
      = [.tunWrite (fixCksumV4 buf)]
  ∧ (20 ≤ buf.length → buf.headD 0 / 16 = 4 →
      fixCksumV4 buf
        = (buf.set 10 (inCksum (buf.take 20) / 256)).set 11 (inCksum (buf.take 20) % 256)) := by
  refine ⟨rfl, ?_, ?_⟩
  · unfold sender_deliver_data sender_enqueue_data
    simp only [hp, if_pos]
    unfold worker_process_data
    simp
  · intro h1 h2
    unfold fixCksumV4
    rw [if_pos ⟨h1, h2⟩]

/-- Witness for the amended C9: a frame addressed to the local sentinel is
written to the TUN device with the checksum fixup applied. -/
theorem sender_local_delivery_witness :
    sender_deliver_data
        { buffer := [0x45, 0, 0, 20], dests := [⟨9, 0, 0⟩], frag := 0, tos := 0 }
      = [.tunWrite (fixCksumV4 [0x45, 0, 0, 20])] :=
  (sender_local_delivery [0x45, 0, 0, 20] [] 0 0 ⟨9, 0, 0⟩ (by decide)).2.1

/-- The routing table (main.cxx `routes`, an unordered_map from inner address
to route_via_t), modelled as an association list with unique keys. -/
abbrev Routes := List (inner_addr_t × route_via_t)

/-- Map lookup. -/
def routesFind (st : Routes) (a : inner_addr_t) : Option route_via_t :=
  (st.find? (fun e => e.1 == a)).map (·.2)

/-- Store an entry under a key (replacing the existing binding, or appending
a new one — association lists with unique keys model the unordered_map). -/
def routesSet (st : Routes) (a : inner_addr_t) (rv : route_via_t) : Routes :=
  match st with
  | [] => [(a, rv)]
  | e :: rest => if e.1 == a then (a, rv) :: rest else e :: routesSet rest a rv

/-- `routes[a]`: operator[] default-constructs an empty entry on a miss. -/
def routesGetD (st : Routes) (a : inner_addr_t) : route_via_t :=
  (routesFind st a).getD { _routers := [], _fresh_add := false }

/-- have_route (main.cxx): a route exists iff the entry exists and its
router list is nonempty. -/
def have_route (st : Routes) (a : inner_addr_t) : Option route_via_t :=
  match routesFind st a with
  | none => none
  | some rv => if rv._routers.isEmpty then none else some rv

/-- `routes[a].add_router(router, hops)` over the table. -/
def routesAddRouter (lastTime : Int) (st : Routes) (a : inner_addr_t)
    (router : Peer) (hops : Nat) : Routes × Bool :=
  let res := (routesGetD st a).add_router lastTime router hops
  (routesSet st a res.1, res.2)

/-- The local sentinel peer (a default-constructed remote_peer_t, AF_UNSPEC):
"deliver via the TUN device". -/
def localSentinel : Peer := ⟨0, 0, 0⟩

/-- route_via_t::get_router: the front router's peer.  All call sites in
main.cxx guard with have_route / !empty(), so the default is never
observable there. -/
def route_via_t.get_router (rv : route_via_t) : Peer :=
  (rv._routers.head?.map via_router_t.addr).getD localSentinel

/-- Hop count of the front router (guarded by nonemptiness at call sites). -/
def route_via_t.front_hops (rv : route_via_t) : Nat :=
  match rv._routers with
  | [] => 0
  | h :: _ => h.hops

/-- The configuration snapshot and module-level state of main.cxx that the
handlers read: local interface addresses, exported locals, blocked broadcast
destinations, the peer registry `remotes` (sorted by socket address), the
near-router swap threshold, the first local IPv4 interface address with its
netmask (get_local_aptr(IAFA_AT_INET)), the wall clock `last_time` and the
configured `remote_timeout`. -/
structure Cfg where
  locals : List inner_addr_t
  exported : List inner_addr_t
  blocked : List inner_addr_t
  remotes : List Peer
  max_near_rtt : ℚ
  localV4 : Option (Nat × Nat)
  lastTime : Int
  remote_timeout : Int
deriving DecidableEq, Repr

/-- am_ii_addr (main.cxx): the address is one of the local interface
addresses, or — when with_exported — one of the exported locals. -/
def am_ii_addr (cfg : Cfg) (o : inner_addr_t) (with_exported : Bool := true) : Bool :=
  cfg.locals.contains o || (with_exported && cfg.exported.contains o)

/-- rem_peer (main.cxx): binary search the sorted peer vector for a
value-equal element and erase it.  On the sorted vectors the callers pass,
this removes the first value-equal element. -/
def rem_peer (vec : List Peer) (item : Peer) : List Peer :=
  match vec with
  | [] => []
  | p :: rest => if peerValEq p item then rest else p :: rem_peer rest item

/-- zprn2_sdat (sender.hpp): one PRN record with its destinations and the
optional confirmed peer, as it sits in the sender queue. -/
structure zprn2_sdat where
  zprn : zprn_v2
  dests : List Peer
  confirmed : Option Peer
deriving DecidableEq, Repr

/-- sender_t::enqueue(zprn2_sdat&&) (sender.cxx): null and local
destinations are erased; if none remain the message is not queued. -/
def sender_enqueue_zprn (msg : zprn_v2) (dests : List Peer) (confirmed : Option Peer) :
    Option zprn2_sdat :=
  let ds := dests.filter (fun p => !p.is_local)
  if ds.isEmpty then none else some ⟨msg, ds, confirmed⟩

/-- send_zprn_msg (main.cxx): start from a copy of all remotes; for a
ROUTEMOD whose prio is not 0xff, remove the current primary router of the
announced route from the recipients (split horizon); then hand the message
to the sender with the given confirmed peer. -/
def send_zprn_msg (cfg : Cfg) (st : Routes) (msg : zprn_v2) (confirmed : Option Peer) :
    Option zprn2_sdat :=
  let peers := cfg.remotes
  let peers1 :=
    if msg.zprn_prio ≠ 0xff ∧ msg.zprn_cmd = 0 then
      match have_route st msg.route with
      | some rv => rem_peer peers rv.get_router
      | none => peers
    else peers
  sender_enqueue_zprn msg peers1 confirmed

/-- The routing-table state after the delete part of the ROUTEMOD handler:
when a route entry for the destination exists (and is nonempty), the routers
held through srca's handle are removed from it. -/
def routemodDeleteState (st : Routes) (dsta : inner_addr_t) (srca : Peer) : Routes :=
  match have_route st dsta with
  | some rv => routesSet st dsta (rv.del_router srca).1
  | none => st

/-- zprn_v2_routemod_handler (main.cxx).  For prio ≠ 0xff: add the route
(unless the destination is a local or exported address).  For prio = 0xff:
delete the route via the origin, then — if the destination is a local
interface address — flood a prio-0 add; otherwise, if a route remains, flood
an add with the new primary's hop count; otherwise emit nothing.  Returns
the updated table and the message handed to the sender, if any. -/
def zprn_v2_routemod_handler (cfg : Cfg) (st : Routes) (srca : Peer) (d : zprn_v2) :
    Routes × Option zprn2_sdat :=
  let dsta := d.route
  if d.zprn_prio ≠ 0xff then
    if !(am_ii_addr cfg dsta) then
      ((routesAddRouter cfg.lastTime st dsta srca (d.zprn_prio + 1)).1, none)
    else (st, none)
  else
    let del : Routes × Option route_via_t :=
      match have_route st dsta with
      | some rv => (routesSet st dsta (rv.del_router srca).1, some (rv.del_router srca).1)
      | none => (st, none)
    let st1 := del.1
    if am_ii_addr cfg dsta false then
      (st1, send_zprn_msg cfg st1 { d with zprn_prio := 0 } (some srca))
    else
      match del.2 with
      | some rv1 =>
          match rv1._routers with
          | [] => (st1, none)
          | h :: _ =>
              (st1, send_zprn_msg cfg st1 { d with zprn_prio := h.hops } (some srca))
      | none => (st1, none)

/-- zprn_handle_probe_req (main.cxx): answer a PROBE request.  If the
destination is a local interface address, or a route exists whose primary is
neither hop-count 0xff nor value-equal to the origin, reply to the origin
alone with a ROUTEMOD add carrying the hop count (0 for a local address);
otherwise, when the request expected an answer (prio 0xfe), reply with a
PROBE of prio 0; otherwise stay silent. -/
def zprn_handle_probe_req (cfg : Cfg) (st : Routes) (srca : Peer) (d : zprn_v2)
    (expected_to_hr : Bool) : Option zprn2_sdat :=
  let base : Bool × zprn_v2 :=
    if am_ii_addr cfg d.route false then (true, { d with zprn_prio := 0 })
    else
      match have_route st d.route with
      | some rv =>
          let m := { d with zprn_prio := rv.front_hops }
          if m.zprn_prio == 0xff || peerValEq rv.get_router srca then (false, m)
          else (true, m)
      | none => (false, d)
  if base.1 then
    sender_enqueue_zprn { base.2 with zprn_cmd := 0 } [srca] (some srca)
  else if !expected_to_hr then none
  else sender_enqueue_zprn { base.2 with zprn_prio := 0 } [srca] (some srca)

/-- zprn_v2_probe_handler (main.cxx): prio 0 is a probe response, handled
like a targeted delete without a correction echo; prio 0xff and 0xfe are
probe requests; other priorities are ignored. -/
def zprn_v2_probe_handler (cfg : Cfg) (st : Routes) (srca : Peer) (d : zprn_v2) :
    Routes × Option zprn2_sdat :=
  if d.zprn_prio = 0 then
    (routemodDeleteState st d.route srca, none)
  else if d.zprn_prio = 0xff then
    (st, zprn_handle_probe_req cfg st srca d false)
  else if d.zprn_prio = 0xfe then
    (st, zprn_handle_probe_req cfg st srca d true)
  else (st, none)

theorem routesFind_set_self (st : Routes) (a : inner_addr_t) (rv : route_via_t) :
    routesFind (routesSet st a rv) a = some rv := by
  induction st with
  | nil => simp [routesSet, routesFind]
  | cons e rest ih =>
      cases he : (e.1 == a) with
      | true =>
          have h1 : routesSet (e :: rest) a rv = (a, rv) :: rest := by
            simp [routesSet, he]
          rw [h1]
          unfold routesFind
          rw [List.find?_cons_of_pos _ (by simp)]
          rfl
      | false =>
          have h1 : routesSet (e :: rest) a rv = e :: routesSet rest a rv := by
            simp [routesSet, he]
          rw [h1]
          unfold routesFind at ih ⊢
          rw [List.find?_cons_of_neg _ (by simp [he])]
          exact ih

theorem mem_rem_peer_of_ne {vec : List Peer} {item p : Peer}
    (hp : p ∈ vec) (h : peerValEq p item = false) : p ∈ rem_peer vec item := by
  induction vec with
  | nil => cases hp
  | cons q rest ih =>
      unfold rem_peer
      by_cases hq : peerValEq q item
      · simp only [if_pos hq]
        rcases List.mem_cons.mp hp with rfl | hmem
        · rw [hq] at h; cases h
        · exact hmem
      · simp only [if_neg hq]
        rcases List.mem_cons.mp hp with rfl | hmem
        · exact List.mem_cons_self _ _
        · exact List.mem_cons_of_mem _ (ih hmem)

theorem rem_peer_subset {vec : List Peer} {item p : Peer}
    (hp : p ∈ rem_peer vec item) : p ∈ vec := by
  induction vec with
  | nil => simp [rem_peer] at hp
  | cons q rest ih =>
      unfold rem_peer at hp
      by_cases hq : peerValEq q item
      · rw [if_pos hq] at hp
        exact List.mem_cons_of_mem _ hp
      · rw [if_neg hq] at hp
        rcases List.mem_cons.mp hp with rfl | hmem
        · exact List.mem_cons_self _ _
        · exact List.mem_cons_of_mem _ (ih hmem)

theorem send_zprn_msg_emission (cfg : Cfg) (st : Routes) (msg : zprn_v2)
    (confirmed : Option Peer) (e : zprn2_sdat)
    (h : send_zprn_msg cfg st msg confirmed = some e) :
    e.confirmed = confirmed
  ∧ (∀ p ∈ e.dests, p ∈ cfg.remotes ∧ p.is_local = false)
  ∧ (∀ p ∈ cfg.remotes, p.is_local = false →
      (∀ rv, have_route st msg.route = some rv → peerValEq p rv.get_router = false) →
      p ∈ e.dests) := by
  unfold send_zprn_msg sender_enqueue_zprn at h
  set peers1 :=
    (if msg.zprn_prio ≠ 0xff ∧ msg.zprn_cmd = 0 then
      match have_route st msg.route with
      | some rv => rem_peer cfg.remotes rv.get_router
      | none => cfg.remotes
    else cfg.remotes) with hpeers1
  simp only at h
  by_cases hemp : (peers1.filter (fun p => !p.is_local)).isEmpty
  · rw [if_pos hemp] at h; cases h
  · rw [if_neg hemp] at h
    have he : e = ⟨msg, peers1.filter (fun p => !p.is_local), confirmed⟩ :=
      (Option.some_injective _ h).symm
    subst he
    refine ⟨rfl, ?_, ?_⟩
    · intro p hp
      have h1 := List.mem_filter.mp hp
      refine ⟨?_, by simpa using h1.2⟩
      have hsub : p ∈ peers1 := h1.1
      rw [hpeers1] at hsub
      by_cases hc : msg.zprn_prio ≠ 0xff ∧ msg.zprn_cmd = 0
      · rw [if_pos hc] at hsub
        cases hr : have_route st msg.route with
        | none => rw [hr] at hsub; exact hsub
        | some rv => rw [hr] at hsub; exact rem_peer_subset hsub
      · rw [if_neg hc] at hsub; exact hsub
    · intro p hp hloc hne
      refine List.mem_filter.mpr ⟨?_, by simpa using hloc⟩
      rw [hpeers1]
      by_cases hc : msg.zprn_prio ≠ 0xff ∧ msg.zprn_cmd = 0
      · rw [if_pos hc]
        cases hr : have_route st msg.route with
        | none => exact hp
        | some rv => exact mem_rem_peer_of_ne hp (by
            cases hvq : peerValEq p rv.get_router
            · rfl
            · exact absurd hvq (by rw [hne rv hr]; simp))
      · rw [if_neg hc]; exact hp

theorem have_route_after_delete (st : Routes) (dsta : inner_addr_t) (srca : Peer) :
    have_route (routemodDeleteState st dsta srca) dsta =
      (match have_route st dsta with
      | some rv =>
          if ((rv.del_router srca).1)._routers.isEmpty then none
          else some (rv.del_router srca).1
      | none => none) := by
  unfold routemodDeleteState
  cases hr : have_route st dsta with
  | none => simpa using hr
  | some rv =>
      simp only []
      unfold have_route
      rw [routesFind_set_self]

/-- The current primary router for the destination (after the delete step)
does not collide with the given peer by socket-address equality: the
split-horizon removal in send_zprn_msg therefore cannot remove that peer. -/
def survivesSplitHorizon (st1 : Routes) (dsta : inner_addr_t) (srca : Peer) : Bool :=
  match have_route st1 dsta with
  | some rv => !(peerValEq srca rv.get_router)
  | none => true

/-- A local interface address of the counterexample node. -/
def cexLocalAddr : inner_addr_t := ⟨1, [10, 0, 0, 1]⟩

/-- The origin peer of the ROUTEMOD delete (a configured remote). -/
def cexOriginPeer : Peer := ⟨1, 2, 500⟩

/-- Counterexample configuration: one local address, one remote peer. -/
def cexCfg : Cfg :=
  { locals := [cexLocalAddr], exported := [], blocked := [], remotes := [cexOriginPeer],
    max_near_rtt := 5, localV4 := none, lastTime := 100, remote_timeout := 300 }

/-- Counterexample routing table: the self-route to the local address via the
local router handle added at startup. -/
def cexRoutes : Routes :=
  [(cexLocalAddr,
    { _routers := [{ addr := ⟨9, 0, 0⟩, seen := 100, latency := 0, hops := 0 }],
      _fresh_add := false })]

/-- The ROUTEMOD delete record for the local address. -/
def cexDelMsg : zprn_v2 := { zprn_cmd := 0, zprn_prio := 0xff, route := cexLocalAddr }

/-- C3, counterexample: a ROUTEMOD delete for one of the node's local
addresses, arriving from the only configured remote peer, makes the handler
flood the prio-0 correction — and the recipient list is exactly that origin
peer.  The origin is not excluded (it is only marked as the confirmed peer),
contradicting the claim's "to all peers except the origin". -/
theorem routemod_delete_origin_cex :
    ((zprn_v2_routemod_handler cexCfg cexRoutes cexOriginPeer cexDelMsg).2.map
        zprn2_sdat.dests) = some [cexOriginPeer]
  ∧ ((zprn_v2_routemod_handler cexCfg cexRoutes cexOriginPeer cexDelMsg).2.map
        zprn2_sdat.confirmed) = some (some cexOriginPeer) := by decide

/-- C3, amended: on a ROUTEMOD delete from srca for dest, the handler deletes
the route to dest via srca; then, if dest is a local interface address, it
floods a ROUTEMOD add with prio 0 for dest; otherwise, if a route to dest
still exists, it floods a ROUTEMOD add with prio equal to the new primary
router's hop count; otherwise it emits nothing.  The flood's recipients are
the non-local configured remotes minus (split horizon) the first remote
whose socket address equals the current primary router for dest; the origin
is NOT excluded — it is marked as the confirmed peer, and receives the flood
whenever it is a non-local remote not removed by the split horizon. -/
theorem routemod_delete_amended (cfg : Cfg) (st : Routes) (srca : Peer) (d : zprn_v2)
    (hpr : d.zprn_prio = 0xff) :
    (zprn_v2_routemod_handler cfg st srca d).1 = routemodDeleteState st d.route srca
  ∧ (zprn_v2_routemod_handler cfg st srca d).2 =
      (if am_ii_addr cfg d.route false then
        send_zprn_msg cfg (routemodDeleteState st d.route srca)
          { d with zprn_prio := 0 } (some srca)
      else
        match have_route (routemodDeleteState st d.route srca) d.route with
        | some rv =>
            send_zprn_msg cfg (routemodDeleteState st d.route srca)
              { d with zprn_prio := rv.front_hops } (some srca)
        | none => none)
  ∧ (∀ e, (zprn_v2_routemod_handler cfg st srca d).2 = some e →
      e.confirmed = some srca
      ∧ (∀ p ∈ e.dests, p ∈ cfg.remotes ∧ p.is_local = false)
      ∧ (srca ∈ cfg.remotes → srca.is_local = false →
          survivesSplitHorizon (routemodDeleteState st d.route srca) d.route srca = true →
          srca ∈ e.dests)) := by
  have hnot : ¬ d.zprn_prio ≠ 0xff := by simp [hpr]
  have hstate : (zprn_v2_routemod_handler cfg st srca d).1
      = routemodDeleteState st d.route srca := by
    unfold zprn_v2_routemod_handler routemodDeleteState
    rw [if_neg hnot]
    cases hr : have_route st d.route with
    | none => simp only []; split <;> rfl
    | some rv =>
        simp only []
        split
        · rfl
        · split <;> rfl
  have hemit : (zprn_v2_routemod_handler cfg st srca d).2 =
      (if am_ii_addr cfg d.route false then
        send_zprn_msg cfg (routemodDeleteState st d.route srca)
          { d with zprn_prio := 0 } (some srca)
      else
        match have_route (routemodDeleteState st d.route srca) d.route with
        | some rv =>
            send_zprn_msg cfg (routemodDeleteState st d.route srca)
              { d with zprn_prio := rv.front_hops } (some srca)
        | none => none) := by
    unfold zprn_v2_routemod_handler
    rw [if_neg hnot, have_route_after_delete]
    cases hr : have_route st d.route with
    | none =>
        have hst : routemodDeleteState st d.route srca = st := by
          unfold routemodDeleteState; rw [hr]
        simp only [hst]
        split <;> rfl
    | some rv =>
        have hst : routemodDeleteState st d.route srca
            = routesSet st d.route (rv.del_router srca).1 := by
          unfold routemodDeleteState; rw [hr]
        simp only [hst]
        split
        · rfl
        · cases hl : ((rv.del_router srca).1)._routers with
          | nil => simp [hl]
          | cons h t => simp [hl, route_via_t.front_hops]
  refine ⟨hstate, hemit, ?_⟩
  intro e he
  rw [hemit] at he
  by_cases hloc : am_ii_addr cfg d.route false
  · rw [if_pos hloc] at he
    obtain ⟨h1, h2, h3⟩ := send_zprn_msg_emission _ _ _ _ _ he
    refine ⟨h1, h2, ?_⟩
    intro hmem hlocal hsrv
    refine h3 srca hmem hlocal ?_
    intro rv hrv
    unfold survivesSplitHorizon at hsrv
    rw [hrv] at hsrv
    simpa using hsrv
  · rw [if_neg hloc] at he
    cases hr : have_route (routemodDeleteState st d.route srca) d.route with
    | none => rw [hr] at he; cases he
    | some rv =>
        rw [hr] at he
        obtain ⟨h1, h2, h3⟩ := send_zprn_msg_emission _ _ _ _ _ he
        refine ⟨h1, h2, ?_⟩
        intro hmem hlocal hsrv
        refine h3 srca hmem hlocal ?_
        intro rv' hrv'
        unfold survivesSplitHorizon at hsrv
        rw [hrv'] at hsrv
        simpa using hsrv

/-- Witness for the amended C3: on the counterexample input the origin peer
is among the flood's recipients. -/
theorem routemod_delete_amended_witness :
    cexOriginPeer ∈
      (⟨⟨0, 0, cexLocalAddr⟩, [cexOriginPeer], some cexOriginPeer⟩ : zprn2_sdat).dests :=
  (((routemod_delete_amended cexCfg cexRoutes cexOriginPeer cexDelMsg (by decide)).2.2
      ⟨⟨0, 0, cexLocalAddr⟩, [cexOriginPeer], some cexOriginPeer⟩ (by decide)).2.2
    (by decide) (by decide) (by decide))

/-- C8: handling a PRN PROBE request (prio 0xff or 0xfe) for dest from a
non-local peer srca: if dest is a local interface address, exactly one
ROUTEMOD add with prio 0 is sent to srca alone; if a route to dest exists
whose primary is neither via srca (by socket address) nor at hop count 0xff,
exactly one ROUTEMOD add with prio equal to that hop count is sent to srca
alone; if no route exists, a PROBE with prio 0 is sent to srca when the
request prio was 0xfe, and nothing is sent when it was 0xff. -/
theorem enqueue_single (srca : Peer) (hsrc : srca.is_local = false) (m : zprn_v2) :
    sender_enqueue_zprn m [srca] (some srca) = some ⟨m, [srca], some srca⟩ := by
  unfold sender_enqueue_zprn
  simp [hsrc]

theorem probe_req_local_case (cfg : Cfg) (st : Routes) (srca : Peer) (d : zprn_v2)
    (expected : Bool) (hsrc : srca.is_local = false)
    (hloc : am_ii_addr cfg d.route false = true) :
    zprn_handle_probe_req cfg st srca d expected
      = some ⟨{ d with zprn_cmd := 0, zprn_prio := 0 }, [srca], some srca⟩ := by
  unfold zprn_handle_probe_req
  simp only [hloc, if_true]
  rw [enqueue_single srca hsrc]

theorem probe_req_route_case (cfg : Cfg) (st : Routes) (srca : Peer) (d : zprn_v2)
    (expected : Bool) (rv : route_via_t) (hsrc : srca.is_local = false)
    (hloc : am_ii_addr cfg d.route false = false)
    (hr : have_route st d.route = some rv)
    (hvq : peerValEq rv.get_router srca = false) (hfh : rv.front_hops ≠ 0xff) :
    zprn_handle_probe_req cfg st srca d expected
      = some ⟨{ d with zprn_cmd := 0, zprn_prio := rv.front_hops }, [srca], some srca⟩ := by
  unfold zprn_handle_probe_req
  have hcond : (({ d with zprn_prio := rv.front_hops } : zprn_v2).zprn_prio == 0xff
      || peerValEq rv.get_router srca) = false := by
    simp [hvq, hfh]
  simp only [hloc, Bool.false_eq_true, if_false, hr, hcond]
  rw [enqueue_single srca hsrc]
  simp

theorem probe_req_no_route_case (cfg : Cfg) (st : Routes) (srca : Peer) (d : zprn_v2)
    (expected : Bool) (hsrc : srca.is_local = false)
    (hloc : am_ii_addr cfg d.route false = false)
    (hr : have_route st d.route = none) :
    zprn_handle_probe_req cfg st srca d expected
      = (if expected
         then some ⟨{ d with zprn_prio := 0 }, [srca], some srca⟩
         else none) := by
  unfold zprn_handle_probe_req
  simp only [hloc, Bool.false_eq_true, if_false, hr]
  cases expected with
  | false => simp
  | true => simp only [Bool.not_true, Bool.false_eq_true, if_false, if_true]
            rw [enqueue_single srca hsrc]

theorem probe_handler_dispatch (cfg : Cfg) (st : Routes) (srca : Peer) (d : zprn_v2) :
    (d.zprn_prio = 0xff →
      zprn_v2_probe_handler cfg st srca d = (st, zprn_handle_probe_req cfg st srca d false))
  ∧ (d.zprn_prio = 0xfe →
      zprn_v2_probe_handler cfg st srca d = (st, zprn_handle_probe_req cfg st srca d true)) := by
  constructor <;> intro h <;> unfold zprn_v2_probe_handler <;> simp [h]

/-- C8: handling a PRN PROBE request (prio 0xff or 0xfe) for dest from a
non-local peer srca: if dest is a local interface address, exactly one
ROUTEMOD add with prio 0 is sent to srca alone; if a route to dest exists
whose primary is neither via srca (by socket address) nor at hop count 0xff,
exactly one ROUTEMOD add with prio equal to that hop count is sent to srca
alone; if no route exists, a PROBE with prio 0 is sent to srca when the
request prio was 0xfe, and nothing is sent when it was 0xff. -/
theorem probe_req_spec (cfg : Cfg) (st : Routes) (srca : Peer) (d : zprn_v2)
    (hsrc : srca.is_local = false) (hpr : d.zprn_prio = 0xff ∨ d.zprn_prio = 0xfe) :
    (am_ii_addr cfg d.route false = true →
      zprn_v2_probe_handler cfg st srca d =
        (st, some ⟨{ d with zprn_cmd := 0, zprn_prio := 0 }, [srca], some srca⟩))
  ∧ (∀ rv, am_ii_addr cfg d.route false = false → have_route st d.route = some rv →
      peerValEq rv.get_router srca = false → rv.front_hops ≠ 0xff →
      zprn_v2_probe_handler cfg st srca d =
        (st, some ⟨{ d with zprn_cmd := 0, zprn_prio := rv.front_hops }, [srca], some srca⟩))
  ∧ (am_ii_addr cfg d.route false = false → have_route st d.route = none →
      zprn_v2_probe_handler cfg st srca d =
        (st, if d.zprn_prio = 0xfe
             then some ⟨{ d with zprn_prio := 0 }, [srca], some srca⟩
             else none)) := by
  refine ⟨?_, ?_, ?_⟩
  · intro hloc
    rcases hpr with h | h
    · rw [(probe_handler_dispatch cfg st srca d).1 h,
        probe_req_local_case cfg st srca d false hsrc hloc]
    · rw [(probe_handler_dispatch cfg st srca d).2 h,
        probe_req_local_case cfg st srca d true hsrc hloc]
  · intro rv hloc hr hvq hfh
    rcases hpr with h | h
    · rw [(probe_handler_dispatch cfg st srca d).1 h,
        probe_req_route_case cfg st srca d false rv hsrc hloc hr hvq hfh]
    · rw [(probe_handler_dispatch cfg st srca d).2 h,
        probe_req_route_case cfg st srca d true rv hsrc hloc hr hvq hfh]
  · intro hloc hr
    rcases hpr with h | h
    · rw [(probe_handler_dispatch cfg st srca d).1 h,
        probe_req_no_route_case cfg st srca d false hsrc hloc hr]
      simp [h]
    · rw [(probe_handler_dispatch cfg st srca d).2 h,
        probe_req_no_route_case cfg st srca d true hsrc hloc hr]
      simp [h]

/-- Witness for C8: with an empty routing table and no local addresses, a
PROBE request with prio 0xfe from the sample remote gets a PROBE prio-0
response addressed to that remote alone, and a prio-0xff request gets
nothing. -/
theorem probe_req_spec_witness :
    zprn_v2_probe_handler
        { locals := [], exported := [], blocked := [], remotes := [cexOriginPeer],
          max_near_rtt := 5, localV4 := none, lastTime := 100, remote_timeout := 300 }
        [] cexOriginPeer { zprn_cmd := 3, zprn_prio := 0xfe, route := cexLocalAddr }
      = ([], some ⟨{ zprn_cmd := 3, zprn_prio := 0, route := cexLocalAddr },
                   [cexOriginPeer], some cexOriginPeer⟩) := by
  have h := (probe_req_spec
      { locals := [], exported := [], blocked := [], remotes := [cexOriginPeer],
        max_near_rtt := 5, localV4 := none, lastTime := 100, remote_timeout := 300 }
      [] cexOriginPeer { zprn_cmd := 3, zprn_prio := 0xfe, route := cexLocalAddr }
      (by decide) (Or.inr rfl)).2.2 (by decide) (by decide)
  simpa using h

/-- The inner_addr_t built from an IPv4 address given as its 32-bit value in
wire (big-endian) order: the four address bytes, most significant first. -/
def inner4 (v : Nat) : inner_addr_t :=
  ⟨1, [v / 2 ^ 24 % 256, v / 2 ^ 16 % 256, v / 2 ^ 8 % 256, v % 256]⟩

/-- Modelled from the spec: inner_addr_t::is_direct_broadcast (iAFa.hpp is
not under src/); §3/§4.1: true only for IPv4 255.255.255.255. -/
def inner_addr_t.is_direct_broadcast (a : inner_addr_t) : Bool :=
  a.iat == 1 && a.ibytes == [255, 255, 255, 255]

/-- Modelled from the spec: route_via_t::swap_near_routers (the current
routes.hpp is not under src/); §4.3: when the first two routers have equal
hop count and an absolute latency difference of at most max_near_rtt, swap
them with probability one half.  The random draw is the `coin` argument. -/
def route_via_t.swap_near_routers (maxNear : ℚ) (coin : Bool) (rv : route_via_t) :
    route_via_t :=
  match h : rv._routers with
  | a :: b :: rest =>
      let dlat := if a.latency ≤ b.latency then b.latency - a.latency
                  else a.latency - b.latency
      if a.hops = b.hops ∧ dlat ≤ maxNear ∧ coin = true then
        { rv with _routers := b :: a :: rest }
      else rv
  | _ => rv

/-- The fall-through tail of resolve_route (main.cxx): when no usable route
remains, return no target if the destination is a blocked broadcast
destination; otherwise broadcast to all remotes minus (split horizon) the
source peer. -/
def resolveFallthrough (cfg : Cfg) (st : Routes) (source_peer : Peer)
    (iaddr_dest : inner_addr_t) : Routes × List Peer :=
  if cfg.blocked.contains iaddr_dest then (st, [])
  else (st, rem_peer cfg.remotes source_peer)

/-- resolve_route (main.cxx).  Learns the route to the packet's source
(routes[src].add_router with hop count 0 for a local source address, else
MAXTTL − ttl), then resolves the destination: local destinations and
direct broadcasts from remote sources go to the local sentinel; an existing
route has the source peer pruned from it (and the primary popped when it is
socket-address equal to the source), then — if something remains — the near
routers are possibly swapped and the primary is the single target; otherwise
fall through to the blocked-broadcast check / peer broadcast. -/
def resolve_route (coin : Bool) (cfg : Cfg) (st : Routes) (source_peer : Peer)
    (iaddr_src iaddr_dest : inner_addr_t) (ip_ttl : Nat)
    (destination_is_local : Bool) : Routes × List Peer :=
  let st1 := (routesAddRouter cfg.lastTime st iaddr_src source_peer
      (if am_ii_addr cfg iaddr_src false then 0 else 255 - ip_ttl)).1
  if destination_is_local || (!source_peer.is_local && iaddr_dest.is_direct_broadcast) then
    (st1, [localSentinel])
  else
    match have_route st1 iaddr_dest with
    | some r =>
        let r1 := (r.del_router source_peer).1
        let r2 := if !r1._routers.isEmpty && peerValEq source_peer r1.get_router then
                    r1.del_primary_router
                  else r1
        if !r2._routers.isEmpty then
          let r3 := if cfg.max_near_rtt ≠ 0 then r2.swap_near_routers cfg.max_near_rtt coin
                    else r2
          (routesSet st1 iaddr_dest r3, [r3.get_router])
        else resolveFallthrough cfg (routesSet st1 iaddr_dest r2) source_peer iaddr_dest
    | none => resolveFallthrough cfg st1 source_peer iaddr_dest

/-- An IPv4 packet as route_packet (main.cxx) reads it from the verified
buffer: total length, TOS, fragment field ip_off, TTL, protocol, source and
destination addresses (32-bit wire values), and — meaningful only when the
length guards of the code hold — the ICMP header fields at offset 20 and the
destination address of the embedded original IP header at offset 44. -/
structure Pkt4 where
  len : Nat
  tos : Nat
  off : Nat
  ttl : Nat
  proto : Nat
  src : Nat
  dst : Nat
  icmpType : Nat
  icmpCode : Nat
  echoId : Nat
  echoSeq : Nat
  embDst : Nat
deriving DecidableEq, Repr

/-- Observable actions of the IPv4 ingress pipeline. -/
inductive Ipv4Effect
  | icmpTimeExceeded (dest : Peer)
  | icmpUnreach (host : Bool) (dest : Peer)
  | enqueueData (dests : List Peer) (ttl : Nat) (off : Nat) (tos : Nat)
deriving DecidableEq, Repr

/-- Which branch of route_packet disposed of the packet. -/
inductive Ipv4Outcome
  | dropSmallIcmp
  | dropMulticast
  | dropTtl
  | dropNoTargetIcmpErr
  | dropNoTarget
  | dropRouteRemains
  | forwarded
deriving DecidableEq, Repr

/-- The ICMP classification of route_packet (main.cxx): returns
(is_icmp_errmsg, rm_route).  Echo-family types 0, 8, 9, 10, 13, 14 are not
error messages; time-exceeded (11) with code in-transit (0) and unreachable
(3) with code host (1) or net (0) are route-removing errors; every other
type is an error message without route removal. -/
def icmpErrClass (ty code : Nat) : Bool × Bool :=
  if ty = 0 ∨ ty = 8 ∨ ty = 9 ∨ ty = 10 ∨ ty = 13 ∨ ty = 14 then (false, false)
  else if ty = 11 then (true, code == 0)
  else if ty = 3 then (true, code == 1 || code == 0)
  else (true, false)

/-- Ping-cache fingerprint (ping_cache_t::data_t, ping_cache.hpp). -/
structure PingData where
  src : inner_addr_t
  dst : inner_addr_t
  id : Nat
  seq : Nat
deriving DecidableEq, Repr

/-- A stored ping-cache entry: fingerprint, attributed router, ms time. -/
structure PingEntry where
  dat : PingData
  router : Peer
  tms : ℚ
deriving DecidableEq, Repr

/-- The at-most-one-entry ping cache. -/
abbrev PingCache := Option PingEntry

/-- Modelled from the spec: ping_cache_t::init (ping_cache.cxx is not under
src/); §4.4: store the fingerprint, router and current ms time, overwriting
any prior unmatched request. -/
def ping_init (now_ms : ℚ) (dat : PingData) (router : Peer) : PingCache :=
  some ⟨dat, router, now_ms⟩

/-- Result of a ping-cache match (ping_cache_t::match_t). -/
structure ping_match_t where
  diff : ℚ
  router : Peer
  hops : Nat
  matched : Bool
deriving DecidableEq, Repr

/-- Modelled from the spec: ping_cache_t::match (ping_cache.cxx is not under
src/); §4.4: matched only if the probe's src equals the stored dst and the
probe's dst equals the stored src (reply swap) and id/seq agree; on a match
return rtt = now − stored ms, hops = MAXTTL − ttl + 1, the stored router,
and clear the slot; mismatches do not clear the slot. -/
def ping_match (now_ms : ℚ) (pc : PingCache) (dat : PingData) (router : Peer)
    (ttl : Nat) : PingCache × ping_match_t :=
  match pc with
  | some e =>
      if dat.src == e.dat.dst && dat.dst == e.dat.src
          && dat.id == e.dat.id && dat.seq == e.dat.seq then
        (none, ⟨now_ms - e.tms, e.router, 255 - ttl + 1, true⟩)
      else (pc, ⟨0, localSentinel, 0, false⟩)
  | none => (pc, ⟨0, localSentinel, 0, false⟩)

/-- The ICMP unreachable emission of route_packet's empty-target branch
(main.cxx): only when a local IPv4 interface address exists; host-unreachable
when the destination masked with that interface's netmask equals the stored
interface address, else net-unreachable. -/
def unreachEffs (cfg : Cfg) (dest : Peer) (dst : Nat) : List Ipv4Effect :=
  match cfg.localV4 with
  | some ln => [.icmpUnreach (Nat.land dst ln.2 == ln.1) dest]
  | none => []

/-- The tail of route_packet after a nonempty target list was resolved
(main.cxx): ICMP side effects — an ICMP error that still has a route to the
embedded original destination after pruning the origin suppresses
forwarding; a single-target echo primes the ping cache; a single-target
echo reply that matches the cache updates the router's latency — and the
final enqueue of the packet to the sender. -/
def route_packet_icmp_post (cfg : Cfg) (st1 : Routes) (pc : PingCache) (now_ms : ℚ)
    (source_peer : Peer) (pkt : Pkt4) (ret : List Peer) (ttl2 : Nat)
    (ec : Bool × Bool) : Routes × PingCache × List Ipv4Effect × Ipv4Outcome :=
  let enq := Ipv4Effect.enqueueData ret ttl2 pkt.off pkt.tos
  if pkt.proto == 1 then
    if ec.1 then
      if ec.2 && decide (48 ≤ pkt.len) then
        match have_route st1 (inner4 pkt.embDst) with
        | some r =>
            let r1 := (r.del_router source_peer).1
            let st2 := routesSet st1 (inner4 pkt.embDst) r1
            if r1._routers.isEmpty then (st2, pc, [enq], .forwarded)
            else (st2, pc, [], .dropRouteRemains)
        | none => (st1, pc, [enq], .forwarded)
      else (st1, pc, [enq], .forwarded)
    else
      match ret with
      | [t] =>
          let edat : PingData := ⟨inner4 pkt.src, inner4 pkt.dst, pkt.echoId, pkt.echoSeq⟩
          if pkt.icmpType == 8 then (st1, ping_init now_ms edat t, [enq], .forwarded)
          else if pkt.icmpType == 0 then
            let pm := ping_match now_ms pc edat source_peer ttl2
            if pm.2.matched then
              match have_route st1 edat.src with
              | some r =>
                  (routesSet st1 edat.src
                     (r.update_router cfg.lastTime pm.2.router pm.2.hops pm.2.diff),
                   pm.1, [enq], .forwarded)
              | none => (st1, pm.1, [enq], .forwarded)
            else (st1, pm.1, [enq], .forwarded)
          else (st1, pc, [enq], .forwarded)
      | _ => (st1, pc, [enq], .forwarded)
  else (st1, pc, [enq], .forwarded)

/-- route_packet from the TTL handling onwards (main.cxx): drop on exhausted
TTL (emitting a time-exceeded unless the packet is itself an ICMP error),
decrement the TTL when not an endpoint, resolve the route (which also learns
the source route), handle the empty-target case (ICMP unreachable plus
primary-route demotion), and otherwise run the ICMP side effects and
enqueue. -/
def route_packet_main (coin : Bool) (cfg : Cfg) (st : Routes) (pc : PingCache)
    (now_ms : ℚ) (source_peer : Peer) (pkt : Pkt4) :
    Routes × PingCache × List Ipv4Effect × Ipv4Outcome :=
  let ec := if pkt.proto == 1 then icmpErrClass pkt.icmpType pkt.icmpCode
            else (false, false)
  let iaddr_dst := inner4 pkt.dst
  let iam_ep := source_peer.is_local || am_ii_addr cfg iaddr_dst
  if pkt.ttl == 0 || (!iam_ep && pkt.ttl == 1) then
    (st, pc, (if ec.1 then [] else [.icmpTimeExceeded source_peer]), .dropTtl)
  else
    let ttl2 := if iam_ep then pkt.ttl else pkt.ttl - 1
    let rr := resolve_route coin cfg st source_peer (inner4 pkt.src) iaddr_dst ttl2
                (!source_peer.is_local && iam_ep)
    if rr.2.isEmpty then
      if ec.1 then (rr.1, pc, [], .dropNoTargetIcmpErr)
      else
        ((match have_route rr.1 iaddr_dst with
          | some r => routesSet rr.1 iaddr_dst r.del_primary_router
          | none => rr.1),
         pc, unreachEffs cfg source_peer pkt.dst, .dropNoTarget)
    else route_packet_icmp_post cfg rr.1 pc now_ms source_peer pkt rr.2 ttl2 ec

/-- route_packet (main.cxx): the too-small-ICMP guard, the silent multicast
drop (destinations whose s_addr has high nibble 14, i.e. 224.0.0.0/4), and
then the main pipeline. -/
def route_packet (coin : Bool) (cfg : Cfg) (st : Routes) (pc : PingCache)
    (now_ms : ℚ) (source_peer : Peer) (pkt : Pkt4) :
    Routes × PingCache × List Ipv4Effect × Ipv4Outcome :=
  if pkt.proto == 1 && decide (pkt.len < 28) then (st, pc, [], .dropSmallIcmp)
  else if pkt.dst / 2 ^ 28 == 14 then (st, pc, [], .dropMulticast)
  else route_packet_main coin cfg st pc now_ms source_peer pkt

theorem route_packet_icmp_post_not_multicast (cfg : Cfg) (st1 : Routes)
    (pc : PingCache) (now_ms : ℚ) (source_peer : Peer) (pkt : Pkt4)
    (ret : List Peer) (ttl2 : Nat) (ec : Bool × Bool) :
    (route_packet_icmp_post cfg st1 pc now_ms source_peer pkt ret ttl2 ec).2.2.2
      ≠ .dropMulticast := by
  intro h
  unfold route_packet_icmp_post at h
  dsimp only at h
  repeat' split at h
  all_goals simp at h

theorem route_packet_main_not_multicast (coin : Bool) (cfg : Cfg) (st : Routes)
    (pc : PingCache) (now_ms : ℚ) (source_peer : Peer) (pkt : Pkt4) :
    (route_packet_main coin cfg st pc now_ms source_peer pkt).2.2.2
      ≠ .dropMulticast := by
  intro h
  unfold route_packet_main at h
  dsimp only at h
  repeat' split at h
  all_goals first
    | simp at h
    | exact route_packet_icmp_post_not_multicast _ _ _ _ _ _ _ _ _ h

theorem multicast_nibble (d : Nat) :
    d / 2 ^ 28 = 14 ↔ (224 ≤ d / 2 ^ 24 ∧ d / 2 ^ 24 ≤ 239) := by
  have h1 : d / 2 ^ 28 = d / 2 ^ 24 / 16 := by
    rw [Nat.div_div_eq_div_mul]
    norm_num
  rw [h1]
  omega

/-- C4: the IPv4 pipeline's multicast check drops exactly the packets whose
destination lies in 224.0.0.0/4.  Every packet whose first destination byte
is 0xE0..0xEF leaves the state and ping cache untouched and produces no
effect — it is disposed of before TTL handling, route learning and
forwarding (by the multicast check, or by the earlier too-small-ICMP guard
for ICMP packets shorter than 28 bytes) — and conversely the multicast
branch is taken only for destinations in that range. -/
theorem multicast_drop_spec (coin : Bool) (cfg : Cfg) (st : Routes) (pc : PingCache)
    (now_ms : ℚ) (source_peer : Peer) (pkt : Pkt4) (hsz : pkt.dst < 2 ^ 32) :
    ((224 ≤ pkt.dst / 2 ^ 24 ∧ pkt.dst / 2 ^ 24 ≤ 239) →
        route_packet coin cfg st pc now_ms source_peer pkt
          = (st, pc, [],
             if pkt.proto == 1 && decide (pkt.len < 28) then Ipv4Outcome.dropSmallIcmp
             else Ipv4Outcome.dropMulticast))
  ∧ ((route_packet coin cfg st pc now_ms source_peer pkt).2.2.2 = .dropMulticast →
      224 ≤ pkt.dst / 2 ^ 24 ∧ pkt.dst / 2 ^ 24 ≤ 239) := by
  constructor
  · intro h
    have hm : (pkt.dst / 2 ^ 28 == 14) = true := by
      simpa using (multicast_nibble pkt.dst).mpr h
    unfold route_packet
    by_cases h1 : (pkt.proto == 1 && decide (pkt.len < 28)) = true
    · rw [if_pos h1, if_pos h1]
    · rw [if_neg h1, if_pos hm, if_neg h1]
  · intro hout
    unfold route_packet at hout
    by_cases h1 : (pkt.proto == 1 && decide (pkt.len < 28)) = true
    · rw [if_pos h1] at hout
      cases hout
    · rw [if_neg h1] at hout
      by_cases h2 : (pkt.dst / 2 ^ 28 == 14) = true
      · exact (multicast_nibble pkt.dst).mp (by simpa using h2)
      · rw [if_neg h2] at hout
        exact absurd hout
          (route_packet_main_not_multicast coin cfg st pc now_ms source_peer pkt)

/-- The origin peer and node configuration of the blocked-broadcast and
multicast evaluations: no local addresses, one remote, destination
10.0.0.1 blocked, local IPv4 interface 10.0.0.5/24. -/
def c5cfg : Cfg :=
  { locals := [], exported := [], blocked := [inner4 0x0A000001],
    remotes := [cexOriginPeer], max_near_rtt := 5,
    localV4 := some (0x0A000005, 0xFFFFFF00), lastTime := 100, remote_timeout := 300 }

/-- A multicast-addressed UDP packet (destination 224.0.0.5). -/
def mcastPkt : Pkt4 :=
  { len := 40, tos := 0, off := 0, ttl := 64, proto := 17, src := 0x0A000002,
    dst := 0xE0000005, icmpType := 0, icmpCode := 0, echoId := 0, echoSeq := 0,
    embDst := 0 }

/-- Witness for C4: the multicast-addressed packet is dropped silently with
nothing changed, and its destination's first byte 0xE0 lies in the range. -/
theorem multicast_drop_spec_witness :
    route_packet false c5cfg [] none 0 cexOriginPeer mcastPkt
      = ([], none, [], .dropMulticast) := by
  have h := (multicast_drop_spec false c5cfg [] none 0 cexOriginPeer mcastPkt
      (by decide)).1 (by decide)
  simpa using h

/-- A UDP packet from 10.0.0.2 to the blocked destination 10.0.0.1. -/
def c5pkt : Pkt4 :=
  { len := 40, tos := 0, off := 0, ttl := 64, proto := 17, src := 0x0A000002,
    dst := 0x0A000001, icmpType := 0, icmpCode := 0, echoId := 0, echoSeq := 0,
    embDst := 0 }

/-- C5, counterexample: a packet to a blocked broadcast destination with no
route to it is NOT dropped silently — an ICMP net-unreachable is emitted
back to the source peer, and the routing table is modified (the route to the
packet's source is learned). -/
theorem blocked_broadcast_cex :
    (route_packet false c5cfg [] none 0 cexOriginPeer c5pkt).2.2.1
        = [.icmpUnreach false cexOriginPeer]
  ∧ (route_packet false c5cfg [] none 0 cexOriginPeer c5pkt).1 ≠ [] := by decide

/-- The routing table after route_packet's unconditional route learning:
the packet's source learned via the source peer with hop count 0 for a local
source address, else MAXTTL minus the (already decremented) TTL. -/
def learnedState (cfg : Cfg) (st : Routes) (srca : Peer) (pkt : Pkt4)
    (ttlUsed : Nat) : Routes :=
  (routesAddRouter cfg.lastTime st (inner4 pkt.src) srca
    (if am_ii_addr cfg (inner4 pkt.src) false then 0 else 255 - ttlUsed)).1

/-- C5, amended: for a non-ICMP ingress packet to a non-local, non-broadcast,
non-multicast destination that is in the blocked-broadcast set and has no
route (even after the source route is learned), the packet is not forwarded
anywhere — no broadcast flood and no enqueue — but it is not dropped
silently: an ICMP unreachable is emitted back to the source peer whenever a
local IPv4 interface address is configured, and the routing table still
changes by learning the route to the packet's source. -/
theorem blocked_broadcast_amended (coin : Bool) (cfg : Cfg) (st : Routes)
    (pc : PingCache) (now_ms : ℚ) (srca : Peer) (pkt : Pkt4)
    (hic : pkt.proto ≠ 1)
    (hmc : pkt.dst / 2 ^ 28 ≠ 14)
    (hsl : srca.is_local = false)
    (hdl : am_ii_addr cfg (inner4 pkt.dst) = false)
    (httl : 2 ≤ pkt.ttl)
    (hbc : (inner4 pkt.dst).is_direct_broadcast = false)
    (hblk : cfg.blocked.contains (inner4 pkt.dst) = true)
    (hnr : have_route (learnedState cfg st srca pkt (pkt.ttl - 1)) (inner4 pkt.dst)
        = none) :
    route_packet coin cfg st pc now_ms srca pkt
      = (learnedState cfg st srca pkt (pkt.ttl - 1), pc,
         unreachEffs cfg srca pkt.dst, .dropNoTarget) := by
  have hp1 : (pkt.proto == 1) = false := by simpa using hic
  have hm1 : (pkt.dst / 2 ^ 28 == 14) = false := by simpa using hmc
  have ht0 : (pkt.ttl == 0) = false := by simp; omega
  have ht1 : (pkt.ttl == 1) = false := by simp; omega
  unfold route_packet
  rw [hp1]
  simp only [Bool.false_and, Bool.false_eq_true, if_false, hm1]
  unfold route_packet_main
  rw [hp1]
  simp only [Bool.false_eq_true, if_false, hsl, hdl, Bool.or_self, Bool.not_false,
    ht0, ht1, Bool.and_true, Bool.or_false, Bool.false_or]
  unfold resolve_route
  simp only [hsl, Bool.not_false, hbc, Bool.and_false, Bool.false_or,
    Bool.false_eq_true, if_false]
  rw [show (routesAddRouter cfg.lastTime st (inner4 pkt.src) srca
      (if am_ii_addr cfg (inner4 pkt.src) false = true then 0 else 255 - (pkt.ttl - 1))).1
      = learnedState cfg st srca pkt (pkt.ttl - 1) from rfl]
  rw [hnr]
  unfold resolveFallthrough
  rw [hblk]
  simp [hnr]

/-- Witness for the amended C5: the concrete blocked-destination packet
evaluates exactly to the amended description — source route learned, a
net-unreachable emitted, outcome drop-without-target. -/
theorem blocked_broadcast_amended_witness :
    route_packet false c5cfg [] none 0 cexOriginPeer c5pkt
      = (learnedState c5cfg [] cexOriginPeer c5pkt 63, none,
         unreachEffs c5cfg cexOriginPeer c5pkt.dst, .dropNoTarget) :=
  blocked_broadcast_amended false c5cfg [] none 0 cexOriginPeer c5pkt (by decide)
    (by decide) (by decide) (by decide) (by decide) (by decide) (by decide) (by decide)

/-- zprn_v2_connmgmt_handler (main.cxx): prio 0 opens a connection (add a
direct route with hop count 1 unless the destination is one of our
addresses); any other prio closes it — every route entry drops the routers
held through the origin's handle, and the entry keyed by the record's route
is cleared. -/
def zprn_v2_connmgmt_handler (cfg : Cfg) (st : Routes) (srca : Peer) (d : zprn_v2) :
    Routes × Option zprn2_sdat :=
  if d.zprn_prio = 0 then
    (if !(am_ii_addr cfg d.route) then (routesAddRouter cfg.lastTime st d.route srca 1).1
     else st, none)
  else
    let st1 := st.map (fun e => (e.1, (e.2.del_router srca).1))
    let st2 := match have_route st1 d.route with
      | some rv => routesSet st1 d.route { rv with _routers := [] }
      | none => st1
    (st2, none)

/-- The per-record dispatch table of handle_zprn_v2_pkt (main.cxx):
ROUTEMOD = 0, CONNMGMT = 1, PROBE = 3; unknown commands are logged and
ignored. -/
def zprnDispatchRecord (cfg : Cfg) (st : Routes) (srca : Peer) (r : zprn_v2) :
    Routes × Option zprn2_sdat :=
  if r.zprn_cmd = 0 then zprn_v2_routemod_handler cfg st srca r
  else if r.zprn_cmd = 1 then zprn_v2_connmgmt_handler cfg st srca r
  else if r.zprn_cmd = 3 then zprn_v2_probe_handler cfg st srca r
  else (st, none)

/-- Dispatch every record of a parsed PRN frame in order, threading the
routing table and collecting the emitted PRN messages. -/
def zprnDispatchAll (cfg : Cfg) (st : Routes) (srca : Peer) (rs : List zprn_v2) :
    Routes × List zprn2_sdat :=
  rs.foldl (fun acc r =>
    ((zprnDispatchRecord cfg acc.1 srca r).1,
     acc.2 ++ (zprnDispatchRecord cfg acc.1 srca r).2.toList)) (st, [])

/-- handle_zprn_pkt's acceptance condition (main.cxx): at least 4 bytes, the
magic byte is zero, the version byte is 2, and the v2 handler's length guard
(header size + 2 < length) holds. -/
def zprnAccepted (l : List Nat) : Bool :=
  decide (4 ≤ l.length) && (l.headD 0 == 0) && (l.getD 1 0 == 2) && decide (6 < l.length)

/-- Byte access into the receive buffer. -/
def byteAt (l : List Nat) (i : Nat) : Nat := l.getD i 0

/-- A 16-bit network-order field at a byte offset. -/
def be16at (l : List Nat) (i : Nat) : Nat := byteAt l i * 256 + byteAt l (i + 1)

/-- A 32-bit network-order field at a byte offset. -/
def be32at (l : List Nat) (i : Nat) : Nat :=
  ((byteAt l i * 256 + byteAt l (i + 1)) * 256 + byteAt l (i + 2)) * 256 + byteAt l (i + 3)

/-- verify_ipv4_packet (main.cxx): for a locally sourced packet the header
checksum must verify (IN_CKSUM over the 20-byte header is zero); the total
length field must not exceed the bytes read; a non-local packet whose source
address is one of our own is dropped (loop protection).  On success returns
the packet length taken from the header. -/
def verify_ipv4_packet (cfg : Cfg) (srca_is_local : Bool) (buf : List Nat) :
    Option Nat :=
  if srca_is_local && !(inCksum (buf.take 20) == 0) then none
  else
    let iplen := be16at buf 2
    if buf.length < iplen then none
    else if !srca_is_local && am_ii_addr cfg (inner4 (be32at buf 12)) then none
    else some iplen

/-- The Pkt4 view of a verified IPv4 buffer: the fixed-offset fields
route_packet reads (ICMP fields and the embedded destination are meaningful
only under the length guards the pipeline itself applies). -/
def parsePkt4 (buf : List Nat) (len : Nat) : Pkt4 :=
  { len := len, tos := byteAt buf 1, off := be16at buf 6, ttl := byteAt buf 8,
    proto := byteAt buf 9, src := be32at buf 12, dst := be32at buf 16,
    icmpType := byteAt buf 20, icmpCode := byteAt buf 21,
    echoId := be16at buf 24, echoSeq := be16at buf 26, embDst := be32at buf 44 }

/-- remote_peer_detail_t: the registry's view of a peer — the underlying
socket-address handle plus the last-seen wall-clock time (the to_discard
flag and config-entry index play no role in the ingress path). -/
structure remote_peer_detail_t where
  peer : Peer
  seen : Int
deriving DecidableEq, Repr

/-- The mutable core state the ingress entry point threads. -/
structure CoreState where
  routes : Routes
  ping : PingCache
deriving DecidableEq, Repr

/-- How route_genip_packet disposed of the datagram. -/
inductive GenAction
  | zprnHandled (emissions : List zprn2_sdat)
  | zprnInvalid
  | tooSmall (ipver : Nat)
  | v4Verified (pkt : Pkt4) (effects : List Ipv4Effect) (outcome : Ipv4Outcome)
  | v4Dropped
  | handleV6
  | unknownVer (ipver : Nat)
deriving DecidableEq, Repr

/-- The dispatch part of route_genip_packet (main.cxx), everything after the
seen-update: high nibble 0 of the first byte (or any buffer shorter than 2
bytes, read as version 255) selects the PRN path, versions 4 and 6 select
the IP pipelines behind their header-length checks and verifiers, and
anything else is logged as unknown.  The IPv6 pipeline mirrors the IPv4 one
and is outside every checked claim; it is represented by its classification
only. -/
def route_genip_dispatch (coin : Bool) (cfg : Cfg) (cs : CoreState) (now_ms : ℚ)
    (srca : Peer) (buf : List Nat) : CoreState × GenAction :=
  let ipver := if buf.length < 2 then 255 else byteAt buf 0 / 16
  if ipver = 0 then
    if zprnAccepted buf then
      let res := zprnDispatchAll cfg cs.routes srca (zprnDispatchedRecords buf)
      ({ cs with routes := res.1 }, .zprnHandled res.2)
    else (cs, .zprnInvalid)
  else if ipver = 4 then
    if buf.length < 20 then (cs, .tooSmall 4)
    else
      match verify_ipv4_packet cfg srca.is_local buf with
      | some iplen =>
          let res := route_packet coin cfg cs.routes cs.ping now_ms srca
                       (parsePkt4 buf iplen)
          (⟨res.1, res.2.1⟩, .v4Verified (parsePkt4 buf iplen) res.2.2.1 res.2.2.2)
      | none => (cs, .v4Dropped)
  else if ipver = 6 then
    if buf.length < 40 then (cs, .tooSmall 6)
    else (cs, .handleV6)
  else (cs, .unknownVer ipver)

/-- route_genip_packet (main.cxx): the ingress entry point for one accepted
datagram.  Its first statement sets the source peer's seen time to the
current wall clock (`srca->seen = last_time`); only then does it classify
and dispatch the buffer. -/
def route_genip_packet (coin : Bool) (cfg : Cfg) (cs : CoreState) (now_ms : ℚ)
    (pd : remote_peer_detail_t) (buf : List Nat) :
    remote_peer_detail_t × CoreState × GenAction :=
  ({ pd with seen := cfg.lastTime },
   route_genip_dispatch coin cfg cs now_ms pd.peer buf)

/-- C10: the ingress entry point refreshes the source peer's seen timestamp
to the current time for every accepted datagram, before and regardless of
any validation or parsing — malformed IP packets, invalid PRN frames and
unknown IP versions all still refresh it (the peer handle itself is left
unchanged); in particular a buffer too short to carry an IP version still
refreshes the timestamp on its way to the unknown-version log. -/
theorem seen_refresh_spec (coin : Bool) (cfg : Cfg) (cs : CoreState) (now_ms : ℚ)
    (pd : remote_peer_detail_t) (buf : List Nat) :
    (route_genip_packet coin cfg cs now_ms pd buf).1.seen = cfg.lastTime
  ∧ (route_genip_packet coin cfg cs now_ms pd buf).1.peer = pd.peer
  ∧ (buf.length < 2 →
      (route_genip_packet coin cfg cs now_ms pd buf).2.2 = .unknownVer 255) := by
  refine ⟨rfl, rfl, ?_⟩
  intro h
  unfold route_genip_packet route_genip_dispatch
  simp [h]

/-- Witness for C10: the empty datagram — nothing parses — still produces
the refreshed timestamp path and is classified as unknown version. -/
theorem seen_refresh_spec_witness :
    (route_genip_packet false c5cfg ⟨[], none⟩ 0 ⟨cexOriginPeer, 0⟩ []).2.2
      = .unknownVer 255 :=
  (seen_refresh_spec false c5cfg ⟨[], none⟩ 0 ⟨cexOriginPeer, 0⟩ []).2.2 (by decide)

end ZPRD
